import Mathlib

/-!
Shallow embedding of the Twenty CRM MCP client (`src/client.ts`) together
with the retry-policy helpers it uses, and proofs of the specification
claims about the request executor, the retrying executor, the pagination
aggregator, fan-out search, field-match lookup and the bulk executor.
-/

namespace TwentyMcp

/-- JavaScript/JSON values as they flow through the client: `undefined`,
`null`, booleans, (integer) numbers, strings, arrays and plain objects
(`DataObject = Record<string, unknown>`, modelled as an association list
in key-insertion order). -/
inductive Val where
  | vUndefined : Val
  | vNull : Val
  | vBool (b : Bool) : Val
  | vNum (n : Int) : Val
  | vStr (s : String) : Val
  | vArr (elems : List Val) : Val
  | vObj (fields : List (String × Val)) : Val
deriving Repr, Inhabited

/-- JavaScript truthiness, as used by `||` and `if` in the source
(`undefined`, `null`, `false`, `0` and `""` are falsy). -/
def truthy : Val → Bool
  | .vUndefined => false
  | .vNull => false
  | .vBool b => b
  | .vNum n => n != 0
  | .vStr s => s != ""
  | .vArr _ => true
  | .vObj _ => true

/-- Test `Array.isArray(v)`. -/
def isArr : Val → Bool
  | .vArr _ => true
  | _ => false

/-- Length of an array value (only consulted after `Array.isArray`). -/
def arrLen : Val → Nat
  | .vArr xs => xs.length
  | _ => 0

/-- Property access `v[k]` as the source uses it: field lookup on objects,
`length` on arrays and strings, `undefined` otherwise. -/
def getField (v : Val) (k : String) : Val :=
  match v with
  | .vObj fields =>
    match fields.find? (fun kv => kv.1 == k) with
    | some kv => kv.2
    | none => .vUndefined
  | .vArr xs => if k == "length" then .vNum xs.length else .vUndefined
  | .vStr s => if k == "length" then .vNum s.length else .vUndefined
  | _ => .vUndefined

/-- Disjunction `a || b` on values: JavaScript returns the left operand
when truthy, otherwise the right one. -/
def jsOr (a b : Val) : Val := if truthy a then a else b

mutual

/-- String coercion `String(v)` / template-literal interpolation.
Array elements that are `null`/`undefined` render as the empty string,
as in `Array.prototype.join`. -/
def jsToString : Val → String
  | .vUndefined => "undefined"
  | .vNull => "null"
  | .vBool b => if b then "true" else "false"
  | .vNum n => toString n
  | .vStr s => s
  | .vArr xs => String.intercalate "," (jsArrStrings xs)
  | .vObj _ => "[object Object]"

/-- Per-element strings of `Array.prototype.join` (`null` and `undefined`
join as empty strings). -/
def jsArrStrings : List Val → List String
  | [] => []
  | .vNull :: rest => "" :: jsArrStrings rest
  | .vUndefined :: rest => "" :: jsArrStrings rest
  | v :: rest => jsToString v :: jsArrStrings rest

end

/-! ### URL construction (`TwentyCrmClient.constructor` and `request`)

The constructor stores `credentials.apiUrl.replace(/\/$/, "")` — the
regular expression removes at most one trailing slash — and `request`
builds `` `${this.baseUrl}${endpoint}` ``. -/

/-- Constructor step `apiUrl.replace(/\/$/, "")`: drop one trailing `/`
if present. -/
def stripTrailingSlash (s : String) : String :=
  if s.toList.getLast? = some '/' then String.mk s.toList.dropLast else s

/-- Request URL `` `${baseUrl}${endpoint}` `` with the constructor's
stored base URL. -/
def buildRequestUrl (apiUrl endpoint : String) : String :=
  stripTrailingSlash apiUrl ++ endpoint

/-- A doubled slash appears at the join point exactly when the stored base
URL still ends in `/` while the endpoint starts with `/`. -/
def joinHasDoubledSlash (apiUrl endpoint : String) : Bool :=
  (stripTrailingSlash apiUrl).toList.getLast? == some '/' &&
    endpoint.toList.head? == some '/'

/-! ### Query-string construction and body attachment (`request`) -/

/-- Predicate of the query loop in `request`: a value is set on the
`URLSearchParams` only when it is not `undefined`, not `null` and not the
empty string (`value !== undefined && value !== null && value !== ""`). -/
def keepQueryVal : Val → Bool
  | .vUndefined => false
  | .vNull => false
  | .vStr s => s != ""
  | _ => true

/-- Behaviour of `URLSearchParams.set`: overwrite the value at an existing
key in place, otherwise append the pair. The keys fed to it come from
`Object.entries` of one object and are therefore pairwise distinct. -/
def setParam (ps : List (String × String)) (k v : String) :
    List (String × String) :=
  if ps.any (fun p => p.1 == k) then
    ps.map (fun p => if p.1 == k then (k, v) else p)
  else ps ++ [(k, v)]

/-- Query-parameter construction in `request` (client.ts lines 38–49):
iterate the query mapping in entry order, setting each key whose value
passes `keepQueryVal`, with `String(value)` coercion. -/
def buildQueryParams (qs : List (String × Val)) : List (String × String) :=
  qs.foldl
    (fun ps kv =>
      if keepQueryVal kv.2 then setParam ps kv.1 (jsToString kv.2) else ps)
    []

/-- Test for the `undefined` value. -/
def isUndefined : Val → Bool
  | .vUndefined => true
  | _ => false

/-- Object fields surviving `JSON.stringify`: serialization drops keys
whose value is `undefined` and keeps every other pair, in order. -/
def jsonObjFields (fields : List (String × Val)) : List (String × Val) :=
  fields.filter (fun kv => !(isUndefined kv.2))

/-- JSON string escaping (quotes and backslashes). -/
def jsonEscape (s : String) : String :=
  String.mk (s.toList.flatMap (fun c =>
    if c = '"' then ['\\', '"']
    else if c = '\\' then ['\\', '\\']
    else [c]))

mutual

/-- Serialization `JSON.stringify(v)`: `undefined` entries of arrays
render as `null`, `undefined`-valued object keys are dropped (the fields
that survive are exactly `jsonObjFields`). -/
def jsonStringify : Val → String
  | .vUndefined => "null"
  | .vNull => "null"
  | .vBool b => if b then "true" else "false"
  | .vNum n => toString n
  | .vStr s => "\"" ++ jsonEscape s ++ "\""
  | .vArr xs =>
    "[" ++ String.intercalate "," (jsonArrStrings xs) ++ "]"
  | .vObj fields =>
    "\x7b" ++ String.intercalate "," (jsonFieldStrings fields) ++ "\x7d"

/-- Serialized array entries of `JSON.stringify`. -/
def jsonArrStrings : List Val → List String
  | [] => []
  | v :: rest => jsonStringify v :: jsonArrStrings rest

/-- Serialized object entries of `JSON.stringify`: keys with `undefined`
values are skipped. -/
def jsonFieldStrings : List (String × Val) → List String
  | [] => []
  | (_, .vUndefined) :: rest => jsonFieldStrings rest
  | (k, v) :: rest =>
    ("\"" ++ jsonEscape k ++ "\":" ++ jsonStringify v) ::
      jsonFieldStrings rest

end

/-- Sanity link between the two views of body serialization: the entries
of `jsonFieldStrings` are exactly the serializations of `jsonObjFields`. -/
lemma jsonFieldStrings_eq_map (fields : List (String × Val)) :
    jsonFieldStrings fields = (jsonObjFields fields).map
      (fun kv => "\"" ++ jsonEscape kv.1 ++ "\":" ++ jsonStringify kv.2) := by
  induction fields with
  | nil => rfl
  | cons kv rest ih =>
    cases kv with
    | mk k v =>
      cases v <;>
        simp [jsonFieldStrings, jsonObjFields, isUndefined, ih,
          List.filter_cons]

/-- Upper-casing `method.toUpperCase()` (the methods used are ASCII). -/
def asciiToUpper (s : String) : String :=
  String.mk (s.toList.map Char.toUpper)

/-- Body attachment in `request` (client.ts lines 59–66): a body string is
transmitted only when the raw mapping is non-empty and the upper-cased
method is neither GET nor DELETE; the transmitted bytes are
`JSON.stringify(body)`. -/
def transmittedBody (method : String) (body : List (String × Val)) :
    Option String :=
  if body.length > 0 &&
      !(asciiToUpper method == "GET" || asciiToUpper method == "DELETE") then
    some (jsonStringify (.vObj body))
  else none

/-- Key/value pairs appearing in the transmitted body, i.e. the object
fields of `transmittedBody`'s serialization. -/
def transmittedBodyFields (method : String) (body : List (String × Val)) :
    Option (List (String × Val)) :=
  if body.length > 0 &&
      !(asciiToUpper method == "GET" || asciiToUpper method == "DELETE") then
    some (jsonObjFields body)
  else none

/-! ### Pagination aggregator (`requestAllItems`, client.ts lines 132–168) -/

/-- Items extracted from one round's response:
`data = responseData.data || responseData` then
`items = Array.isArray(data) ? data : [data]`. -/
def extractItems (resp : Val) : List Val :=
  let d := jsOr (getField resp "data") resp
  match d with
  | .vArr xs => xs
  | _ => [d]

/-- Continuation test of the `do/while` loop: `responseData.data &&
Array.isArray(responseData.data) && responseData.data.length ===
paginatedQs.limit`. -/
def pageContinues (limit : Nat) (resp : Val) : Bool :=
  let d := getField resp "data"
  truthy d && isArr d && (arrLen d == limit)

/-- Loop of `requestAllItems`: each round consumes the next server
response (the transport serves responses in request order), appends that
round's items and advances the offset by the limit; the loop stops when
`pageContinues` fails or — model boundary — when the supplied response
list is exhausted. Returns the accumulated items and the offsets sent. -/
def requestAllItemsGo (limit : Nat) (offset : Nat) :
    List Val → List Val × List Nat
  | [] => ([], [])
  | resp :: rest =>
    let items := extractItems resp
    if pageContinues limit resp then
      let t := requestAllItemsGo limit (offset + limit) rest
      (items ++ t.1, offset :: t.2)
    else (items, [offset])

/-- Limit defaulting `paginatedQs.limit = paginatedQs.limit || 200`:
fall back to 200 when the supplied value is falsy, else read the number. -/
def effectiveLimit (qsLimit : Val) : Nat :=
  if truthy qsLimit then
    match qsLimit with
    | .vNum n => n.toNat
    | _ => 0
  else 200

/-- Aggregator `requestAllItems`: the offset starts at 0 and the limit is
the defaulted query limit. -/
def requestAllItems (qsLimit : Val) (pages : List Val) :
    List Val × List Nat :=
  requestAllItemsGo (effectiveLimit qsLimit) 0 pages

/-! ### Retry policy (`retry.ts` is absent from the sources; modelled
from the spec, §4.2) and retrying executor (`requestWithRetry`,
client.ts lines 91–127) -/

/-- A structured API error as thrown by `request` (client.ts lines
70–81): message, HTTP status code if any, network error code if any, and
the response headers snapshot. -/
structure ApiError where
  message : String := ""
  statusCode : Option Nat := none
  code : Option String := none
  headers : List (String × String) := []
deriving Repr

/-- Substring test used for transient-failure message indicators. -/
def containsSub (needle haystack : String) : Bool :=
  decide (needle.toList <:+: haystack.toList)

/-- Modelled from the spec: `isRetryableError` of the missing `retry.ts`.
Retryable iff the HTTP status is one of 429/502/503/504, the network code
is one of ECONNREFUSED/ETIMEDOUT/ECONNRESET/ENOTFOUND, or the message
contains a transient-failure indicator. -/
def isRetryableError (e : ApiError) : Bool :=
  (match e.statusCode with
   | some s => s == 429 || s == 502 || s == 503 || s == 504
   | none => false) ||
  (match e.code with
   | some c =>
     c == "ECONNREFUSED" || c == "ETIMEDOUT" ||
       c == "ECONNRESET" || c == "ENOTFOUND"
   | none => false) ||
  (["timeout", "socket hang up", "network error", "ECONNREFUSED",
    "ETIMEDOUT", "ECONNRESET", "ENOTFOUND"].any
      (fun ind => containsSub ind e.message))

/-- Modelled from the spec: `getErrorContext` of the missing `retry.ts`.
Produces a human phrase for known statuses/codes and appends
"Failed after N attempt(s)" only when at least one retry happened before
giving up (`attempt > 0`). -/
def getErrorContext (e : ApiError) (attempt : Nat) (maxRetries : Nat) :
    String :=
  let phrase :=
    match e.statusCode with
    | some 429 => "Rate limit exceeded. "
    | some 503 => "Service temporarily unavailable. "
    | some 502 => "Server gateway error. "
    | some 504 => "Server gateway error. "
    | _ =>
      match e.code with
      | some "ECONNREFUSED" => "Connection refused. "
      | _ => ""
  let _ := maxRetries
  phrase ++
    (if attempt > 0 then
      "Failed after " ++ toString (attempt + 1) ++ " attempt(s). "
    else "")

/-- Outcome of one call to the retrying executor: a parsed value, a fresh
`new Error` carrying only a wrapped message string (the raise inside the
catch), or the rethrow of the stored structured error after the loop
(client.ts line 126, `throw lastError`). -/
inductive RetryOutcome where
  | ok (v : Val)
  | errWrapped (msg : String)
  | errRethrown (lastError : Option ApiError)

/-- Trace of one retrying-executor call: its outcome, the total number of
attempts performed and the number of backoff waits taken. -/
structure RetryTrace where
  outcome : RetryOutcome
  attempts : Nat
  sleeps : Nat

/-- Wrapped message raised on the no-retry path:
`new Error(...)` built as `"Twenty CRM API error: " + context + message`. -/
def wrapErrorMessage (e : ApiError) (attempt maxRetries : Nat) : String :=
  "Twenty CRM API error: " ++ getErrorContext e attempt maxRetries ++
    e.message

/-- Loop of `requestWithRetry` (client.ts lines 101–126). `transport n`
is the outcome of the inner request on attempt `n`; `remaining` counts
loop iterations still allowed (`maxRetries + 1 - attempt`); when it hits
0 the loop exits and rethrows `lastError`. -/
def requestWithRetryGo (transport : Nat → Except ApiError Val)
    (maxRetries : Nat) : Nat → Nat → Option ApiError → RetryTrace
  | _, 0, lastError => ⟨.errRethrown lastError, 0, 0⟩
  | attempt, remaining + 1, _ =>
    match transport attempt with
    | .ok v => ⟨.ok v, 1, 0⟩
    | .error e =>
      if isRetryableError e && decide (attempt < maxRetries) then
        let t :=
          requestWithRetryGo transport maxRetries (attempt + 1) remaining
            (some e)
        ⟨t.outcome, t.attempts + 1, t.sleeps + 1⟩
      else ⟨.errWrapped (wrapErrorMessage e attempt maxRetries), 1, 0⟩

/-- Executor `requestWithRetry`: run the loop from attempt 0 with
`maxRetries + 1` iterations allowed and no stored error. -/
def requestWithRetry (transport : Nat → Except ApiError Val)
    (maxRetries : Nat) : RetryTrace :=
  requestWithRetryGo transport maxRetries 0 (maxRetries + 1) none

/-! ### Fan-out search (`searchRecords`, client.ts lines 173–201) -/

/-- Source fields of a JS object spread `{ ...v }`: spreading an object
yields its fields, spreading an array or a string yields index-keyed
entries, spreading anything else yields nothing. -/
def spreadFields : Val → List (String × Val)
  | .vObj fs => fs
  | .vArr xs => xs.enum.map (fun p => (toString p.1, p.2))
  | .vStr s => s.toList.enum.map
      (fun p => (toString p.1, .vStr (String.mk [p.2])))
  | _ => []

/-- Object-literal update `{ ...obj, k: v }`: an existing key is
overwritten in place, otherwise the pair is appended. -/
def setKey (fields : List (String × Val)) (k : String) (v : Val) :
    List (String × Val) :=
  if fields.any (fun kv => kv.1 == k) then
    fields.map (fun kv => if kv.1 == k then (k, v) else kv)
  else fields ++ [(k, v)]

/-- Tagging in `searchRecords`: `{ ...item, _objectType: objectType }`. -/
def tagWithObjectType (objectType : String) (item : Val) : Val :=
  .vObj (setKey (spreadFields item) "_objectType" (.vStr objectType))

/-- Per-type body of `searchRecords` (client.ts lines 178–197): on
transport failure contribute nothing (`catch { return [] }`); on success
unwrap `response.data || response`, listify, and tag every item with the
object type. The transport takes the endpoint and the query mapping of
the issued GET request. -/
def searchTypeContribution
    (transport : String → List (String × Val) → Except String Val)
    (query : String) (limit : Int) (objectType : String) : List Val :=
  match transport ("/rest/" ++ objectType)
      [("search", .vStr query), ("limit", .vNum limit)] with
  | .error _ => []
  | .ok response =>
    let d := jsOr (getField response "data") response
    let items := match d with | .vArr xs => xs | _ => [d]
    items.map (tagWithObjectType objectType)

/-- Search `searchRecords`: one per-type search per object type (all are
issued concurrently and `Promise.all` collects positionally), flattened
in object-type order. -/
def searchRecords
    (transport : String → List (String × Val) → Except String Val)
    (query : String) (objectTypes : List String) (limit : Int) :
    List Val :=
  (objectTypes.map (searchTypeContribution transport query limit)).flatten

/-! ### Field-match lookup (`findRecordByField`, client.ts lines 206–252) -/

/-- Endpoint lookup table `getResourceEndpoint` (transforms.ts). -/
def getResourceEndpoint (resource : String) : String :=
  match resource with
  | "company" => "/rest/companies"
  | "person" => "/rest/people"
  | "opportunity" => "/rest/opportunities"
  | "note" => "/rest/notes"
  | "task" => "/rest/tasks"
  | "activity" => "/rest/activities"
  | "attachment" => "/rest/attachments"
  | r => "/rest/" ++ r

/-- Primary structured-filter query mapping of `findRecordByField`:
`filter: JSON.stringify({ [fieldName]: { eq: fieldValue } })`, `limit: 1`. -/
def findPrimaryQs (fieldName fieldValue : String) : List (String × Val) :=
  [("filter", .vStr (jsonStringify
      (.vObj [(fieldName, .vObj [("eq", .vStr fieldValue)])]))),
   ("limit", .vNum 1)]

/-- Fallback free-text query mapping of `findRecordByField`:
`search: fieldValue`, `limit: 10`. -/
def findFallbackQs (fieldValue : String) : List (String × Val) :=
  [("search", .vStr fieldValue), ("limit", .vNum 10)]

/-- Client-side match test of the fallback scan: case-insensitive
equality when the stored field value is a string,
`String(itemValue) === fieldValue` otherwise. -/
def fieldMatches (fieldName fieldValue : String) (item : Val) : Bool :=
  match getField item fieldName with
  | .vStr s => s.toLower == fieldValue.toLower
  | v => jsToString v == fieldValue

/-- Lookup `findRecordByField`, with the transport abstracted as a
function of the query mapping of the issued GET request (the endpoint is
fixed to `getResourceEndpoint resource` for both calls). -/
def findRecordByField
    (transport : List (String × Val) → Except String Val)
    (fieldName fieldValue : String) : Option Val :=
  match transport (findPrimaryQs fieldName fieldValue) with
  | .ok response =>
    let d := jsOr (getField response "data") response
    match d with
    | .vArr (x :: _) => some x
    | _ => none
  | .error _ =>
    match transport (findFallbackQs fieldValue) with
    | .ok response =>
      let d := jsOr (getField response "data") response
      match d with
      | .vArr xs =>
        match xs.find? (fieldMatches fieldName fieldValue) with
        | some m => if truthy m then some m else none
        | none => none
      | _ => none
    | .error _ => none

/-! ### Bulk executor (`bulkOperation`, client.ts lines 257–304) -/

/-- Operation kind of the bulk executor. -/
inductive BulkOp where
  | create
  | update
  | delete
deriving Repr, DecidableEq

/-- An outgoing request of the bulk executor. -/
structure BulkRequest where
  method : String
  path : String
  body : Option (List (String × Val))

/-- Record property lookup `item.id` (and friends). -/
def objGet (item : List (String × Val)) (k : String) : Val :=
  getField (.vObj item) k

/-- Update-body construction `{ ...item }` followed by
`delete updateData.id`: every field except `id`, in order. -/
def removeId (item : List (String × Val)) : List (String × Val) :=
  item.filter (fun kv => kv.1 != "id")

/-- Request issued for one record (client.ts lines 272–289): POST of the
record for create; PUT of the id-stripped record to `endpoint/id` for
update; DELETE of `endpoint/id` for delete. The id is interpolated with
JavaScript string coercion. -/
def bulkItemRequest (op : BulkOp) (endpoint : String)
    (item : List (String × Val)) : BulkRequest :=
  match op with
  | .create => ⟨"POST", endpoint, some item⟩
  | .update =>
    ⟨"PUT", endpoint ++ "/" ++ jsToString (objGet item "id"),
      some (removeId item)⟩
  | .delete =>
    ⟨"DELETE", endpoint ++ "/" ++ jsToString (objGet item "id"), none⟩

/-- Result object for one record: `{ success: true, data }` on success,
`{ success: false, error, item }` on failure (the catch per item). -/
def bulkItemResult (transport : BulkRequest → Except String Val)
    (op : BulkOp) (endpoint : String) (item : List (String × Val)) : Val :=
  match transport (bulkItemRequest op endpoint item) with
  | .ok response => .vObj [("success", .vBool true), ("data", response)]
  | .error msg =>
    .vObj [("success", .vBool false), ("error", .vStr msg),
      ("item", .vObj item)]

/-- Batching `items.slice(i, i + concurrencyLimit)` of the bulk loop with
its fixed `concurrencyLimit = 5`. -/
def bulkBatches : List α → List (List α)
  | [] => []
  | x :: xs => (x :: xs).take 5 :: bulkBatches (xs.drop 4)
termination_by l => l.length
decreasing_by
  simp only [List.length_drop, List.length_cons]
  omega

/-- Executor `bulkOperation`: batches run sequentially, records within a
batch concurrently, with results collected positionally (`Promise.all`)
and appended batch after batch. -/
def bulkOperation (transport : BulkRequest → Except String Val)
    (op : BulkOp) (endpoint : String) (items : List (List (String × Val))) :
    List Val :=
  ((bulkBatches items).map
    (fun batch => batch.map (bulkItemResult transport op endpoint))).flatten

/-! ## Helper lemmas -/

/-- Keys present after a `URLSearchParams.set`: the existing keys plus the
set key. -/
lemma setParam_keys (ps : List (String × String)) (k v k' : String) :
    k' ∈ (setParam ps k v).map Prod.fst ↔
      k' ∈ ps.map Prod.fst ∨ k' = k := by
  unfold setParam
  split
  · rename_i hany
    have hkeys : (ps.map (fun p => if p.1 == k then (k, v) else p)).map
        Prod.fst = ps.map Prod.fst := by
      rw [List.map_map]
      apply List.map_congr_left
      intro p _
      by_cases hp : p.1 == k
      · simp only [Function.comp_apply, hp, if_pos]
        exact (eq_of_beq hp).symm
      · simp only [Function.comp_apply, hp, if_neg, Bool.false_eq_true,
          not_false_eq_true]
    rw [hkeys]
    constructor
    · exact Or.inl
    · rintro (h | rfl)
      · exact h
      · rcases List.any_eq_true.mp hany with ⟨p, hp, hpk⟩
        have : p.1 = k' := eq_of_beq hpk
        exact this ▸ List.mem_map_of_mem Prod.fst hp
  · simp [List.mem_append]

/-- Any key of the built query string comes from an entry whose value
passed the `keepQueryVal` filter. -/
lemma buildQueryParams_keys_sound (qs : List (String × Val))
    (acc : List (String × String)) (k : String) :
    k ∈ ((qs.foldl
        (fun ps kv =>
          if keepQueryVal kv.2 then setParam ps kv.1 (jsToString kv.2)
          else ps) acc)).map Prod.fst →
      k ∈ acc.map Prod.fst ∨
        ∃ v, (k, v) ∈ qs ∧ keepQueryVal v = true := by
  induction qs generalizing acc with
  | nil => exact fun h => Or.inl h
  | cons kv rest ih =>
    intro h
    simp only [List.foldl_cons] at h
    rcases ih _ h with hacc | ⟨v, hv, hkeep⟩
    · by_cases hk : keepQueryVal kv.2
      · rw [if_pos hk] at hacc
        rcases (setParam_keys acc kv.1 (jsToString kv.2) k).mp hacc with
          h1 | rfl
        · exact Or.inl h1
        · exact Or.inr ⟨kv.2, List.mem_cons_self _ _, hk⟩
      · rw [if_neg hk] at hacc
        exact Or.inl hacc
    · exact Or.inr ⟨v, List.mem_cons_of_mem _ hv, hkeep⟩

/-! ## Claims -/

/-- C1 (counterexample): the claim says null-valued keys never appear in
the transmitted request body, but `request` serializes the raw body with
`JSON.stringify`, which keeps `null` (and empty-string) values: a POST
with body `{a: null}` transmits the key `a`. Only the query string is
filtered. -/
theorem claim_C1_counterexample :
    transmittedBody "POST" [("a", Val.vNull)] =
      some "\x7b\"a\":null\x7d" ∧
    transmittedBodyFields "POST" [("a", Val.vNull)] =
      some [("a", Val.vNull)] ∧
    keepQueryVal Val.vNull = false := by
  refine ⟨rfl, rfl, rfl⟩

/-- C1 (amended): keys whose values are undefined, null or the empty
string never appear in the emitted query string; in the transmitted
request body only undefined-valued keys are dropped (by JSON
serialization) — every other binding, in particular every null-valued and
every empty-string-valued key, is transmitted whenever a body is
attached. -/
theorem claim_C1_amended :
    (∀ (qs : List (String × Val)) (k : String),
      (∀ v, (k, v) ∈ qs → keepQueryVal v = false) →
      k ∉ (buildQueryParams qs).map Prod.fst) ∧
    (∀ (method : String) (body : List (String × Val)) (k : String)
        (fields : List (String × Val)),
      (∀ v, (k, v) ∈ body → v = Val.vUndefined) →
      transmittedBodyFields method body = some fields →
      k ∉ fields.map Prod.fst) ∧
    (∀ (method : String) (body : List (String × Val)) (k : String)
        (v : Val) (fields : List (String × Val)),
      transmittedBodyFields method body = some fields →
      (k, v) ∈ body → isUndefined v = false →
      (k, v) ∈ fields) ∧
    (∀ (method : String) (body : List (String × Val)) (k : String)
        (fields : List (String × Val)),
      transmittedBodyFields method body = some fields →
      (((k, Val.vNull) ∈ body → (k, Val.vNull) ∈ fields) ∧
       ((k, Val.vStr "") ∈ body → (k, Val.vStr "") ∈ fields))) := by
  have htransmit : ∀ (method : String) (body : List (String × Val))
      (k : String) (v : Val) (fields : List (String × Val)),
      transmittedBodyFields method body = some fields →
      (k, v) ∈ body → isUndefined v = false →
      (k, v) ∈ fields := by
    intro method body k v fields htrans hmem hnu
    unfold transmittedBodyFields at htrans
    split at htrans
    · rcases Option.some.inj htrans with rfl
      exact List.mem_filter.mpr ⟨hmem, by simp [hnu]⟩
    · cases htrans
  refine ⟨?_, ?_, htransmit, ?_⟩
  · intro qs k hbad hmem
    rcases buildQueryParams_keys_sound qs [] k hmem with h | ⟨v, hv, hkeep⟩
    · simp at h
    · rw [hbad v hv] at hkeep
      cases hkeep
  · intro method body k fields hbad htrans hmem
    unfold transmittedBodyFields at htrans
    split at htrans
    · rcases Option.some.inj htrans with rfl
      rcases List.mem_map.mp hmem with ⟨kv, hkv, hfst⟩
      rcases List.mem_filter.mp hkv with ⟨hkvmem, hkeep⟩
      cases kv with
      | mk k' v =>
        cases hfst
        rw [hbad v hkvmem] at hkeep
        simp [isUndefined] at hkeep
    · cases htrans
  · intro method body k fields htrans
    exact ⟨fun hmem => htransmit method body k Val.vNull fields htrans
        hmem rfl,
      fun hmem => htransmit method body k (Val.vStr "") fields htrans
        hmem rfl⟩

/-- C1 (witness): a concrete query mapping whose key `a` holds null is
absent from the emitted query string, while a POST body holding a null
value at `a` and an empty string at `c` transmits both bindings. -/
theorem claim_C1_witness :
    ("a" ∉ (buildQueryParams
        [("a", Val.vNull), ("b", Val.vNum 10)]).map Prod.fst) ∧
    (transmittedBodyFields "POST"
        [("a", Val.vNull), ("c", Val.vStr "")] =
      some [("a", Val.vNull), ("c", Val.vStr "")] ∧
     ("a", Val.vNull) ∈ [("a", Val.vNull), ("c", Val.vStr "")] ∧
     ("c", Val.vStr "") ∈ [("a", Val.vNull), ("c", Val.vStr "")]) :=
  ⟨claim_C1_amended.1 [("a", Val.vNull), ("b", Val.vNum 10)] "a"
    (by
      intro v hv
      rcases List.mem_cons.mp hv with h | h
      · injection h with h1 h2
        subst h2
        rfl
      · rcases List.mem_cons.mp h with h' | h'
        · injection h' with h1 h2
          exact absurd h1 (by decide)
        · exact absurd h' (List.not_mem_nil _)),
   rfl,
   (claim_C1_amended.2.2.2 "POST" [("a", Val.vNull), ("c", Val.vStr "")]
      "a" [("a", Val.vNull), ("c", Val.vStr "")] rfl).1
     (List.mem_cons_self _ _),
   (claim_C1_amended.2.2.2 "POST" [("a", Val.vNull), ("c", Val.vStr "")]
      "c" [("a", Val.vNull), ("c", Val.vStr "")] rfl).2
     (List.mem_cons_of_mem _ (List.mem_cons_self _ _))⟩

/-- One-step unfolding of the retry loop for a positive iteration
budget. -/
lemma requestWithRetryGo_succ (transport : Nat → Except ApiError Val)
    (maxRetries attempt remaining : Nat) (last : Option ApiError) :
    requestWithRetryGo transport maxRetries attempt (remaining + 1) last =
      match transport attempt with
      | .ok v => ⟨.ok v, 1, 0⟩
      | .error e =>
        if isRetryableError e && decide (attempt < maxRetries) then
          let t :=
            requestWithRetryGo transport maxRetries (attempt + 1) remaining
              (some e)
          ⟨t.outcome, t.attempts + 1, t.sleeps + 1⟩
        else ⟨.errWrapped (wrapErrorMessage e attempt maxRetries), 1, 0⟩ :=
  rfl

/-- Behaviour of the retry loop when every remaining attempt fails with a
retryable error: it walks through all allowed iterations and finally
wraps the error of the last attempt. `f` is the number of retries still
allowed (`maxRetries - attempt`). -/
lemma retryGo_all_retryable (transport : Nat → Except ApiError Val)
    (maxRetries : Nat) :
    ∀ (f attempt : Nat) (last : Option ApiError),
      attempt + f = maxRetries →
      (∀ i, attempt ≤ i → i ≤ maxRetries →
        ∃ e, transport i = Except.error e ∧ isRetryableError e = true) →
      ∃ e, transport maxRetries = Except.error e ∧
        requestWithRetryGo transport maxRetries attempt (f + 1) last =
          ⟨.errWrapped (wrapErrorMessage e maxRetries maxRetries),
            f + 1, f⟩ := by
  intro f
  induction f with
  | zero =>
    intro attempt last hsum hall
    have hattempt : attempt = maxRetries := by omega
    obtain ⟨e, he, hr⟩ := hall maxRetries (by omega) le_rfl
    refine ⟨e, he, ?_⟩
    rw [hattempt, requestWithRetryGo_succ]
    simp only [he]
    have hnl : ¬(maxRetries < maxRetries) := by omega
    simp [hnl]
  | succ f ih =>
    intro attempt last hsum hall
    have hlt : attempt < maxRetries := by omega
    obtain ⟨e, he, hr⟩ := hall attempt le_rfl (by omega)
    obtain ⟨e', he', heq⟩ :=
      ih (attempt + 1) (some e) (by omega)
        (fun i hi1 hi2 => hall i (by omega) hi2)
    refine ⟨e', he', ?_⟩
    rw [requestWithRetryGo_succ]
    simp only [he]
    have hcond :
        (isRetryableError e && decide (attempt < maxRetries)) = true := by
      simp [hr, hlt]
    simp [hcond, heq]

/-- Behaviour of the retry loop when the first non-retryable failure
occurs at attempt `k` (all earlier attempts failing retryable): the loop
raises right there with the wrapped message, after `k - attempt + 1`
further attempts. -/
lemma retryGo_first_nonretryable (transport : Nat → Except ApiError Val)
    (maxRetries k : Nat) (e : ApiError)
    (hk : k ≤ maxRetries) (hke : transport k = Except.error e)
    (hnr : isRetryableError e = false)
    (hpre : ∀ i, i < k →
      ∃ e', transport i = Except.error e' ∧ isRetryableError e' = true) :
    ∀ (f attempt : Nat) (last : Option ApiError),
      attempt + f = maxRetries → attempt ≤ k →
      requestWithRetryGo transport maxRetries attempt (f + 1) last =
        ⟨.errWrapped (wrapErrorMessage e k maxRetries),
          k - attempt + 1, k - attempt⟩ := by
  intro f
  induction f with
  | zero =>
    intro attempt last hsum hak
    have hattempt : attempt = k := by omega
    subst hattempt
    rw [requestWithRetryGo_succ]
    simp only [hke]
    simp [hnr, Nat.sub_self]
  | succ f ih =>
    intro attempt last hsum hak
    by_cases hek : attempt = k
    · subst hek
      rw [requestWithRetryGo_succ]
      simp only [hke]
      simp [hnr, Nat.sub_self]
    · have hlt : attempt < k := by omega
      obtain ⟨e', he', hr'⟩ := hpre attempt hlt
      have hmr : attempt < maxRetries := by omega
      have hrec := ih (attempt + 1) (some e') (by omega) (by omega)
      have hsub1 : k - (attempt + 1) + 1 + 1 = k - attempt + 1 := by omega
      have hsub2 : k - (attempt + 1) + 1 = k - attempt := by omega
      rw [requestWithRetryGo_succ]
      simp only [he']
      have hcond :
          (isRetryableError e' && decide (attempt < maxRetries)) = true := by
        simp [hr', hmr]
      simp [hcond, hrec, hsub1, hsub2]

/-- C3: if every attempt fails with a retryable error, the retrying
executor performs exactly `maxRetries + 1` sequential attempts with a
wait between consecutive attempts and then raises the last error's
message wrapped with context; a non-retryable failure at attempt `k`
raises immediately after `k + 1` attempts with the wrapped message; in
particular, with `maxRetries = 2` against an always-503-failing transport
it performs exactly 3 attempts and then raises. -/
theorem claim_C3 :
    (∀ (transport : Nat → Except ApiError Val) (maxRetries : Nat),
      (∀ i, i ≤ maxRetries →
        ∃ e, transport i = Except.error e ∧ isRetryableError e = true) →
      ∃ e, transport maxRetries = Except.error e ∧
        requestWithRetry transport maxRetries =
          ⟨.errWrapped (wrapErrorMessage e maxRetries maxRetries),
            maxRetries + 1, maxRetries⟩) ∧
    (∀ (transport : Nat → Except ApiError Val) (maxRetries k : Nat)
        (e : ApiError),
      k ≤ maxRetries →
      (∀ i, i < k →
        ∃ e', transport i = Except.error e' ∧ isRetryableError e' = true) →
      transport k = Except.error e → isRetryableError e = false →
      requestWithRetry transport maxRetries =
        ⟨.errWrapped (wrapErrorMessage e k maxRetries), k + 1, k⟩) ∧
    (requestWithRetry
        (fun _ => Except.error
          { message := "Unavailable", statusCode := some 503 }) 2 =
      ⟨.errWrapped
        ("Twenty CRM API error: Service temporarily unavailable. " ++
          "Failed after 3 attempt(s). Unavailable"), 3, 2⟩) := by
  refine ⟨?_, ?_, ?_⟩
  · intro transport maxRetries hall
    obtain ⟨e, he, heq⟩ :=
      retryGo_all_retryable transport maxRetries maxRetries 0 none
        (by omega) (fun i _ hi => hall i hi)
    exact ⟨e, he, heq⟩
  · intro transport maxRetries k e hk hpre hke hnr
    have h :=
      retryGo_first_nonretryable transport maxRetries k e hk hke hnr hpre
        maxRetries 0 none (by omega) (by omega)
    simpa [Nat.sub_zero] using h
  · rfl

/-- C3 (witness): the all-retryable characterization applied to a
transport that always fails with HTTP 429 and `maxRetries = 1`. -/
theorem claim_C3_witness :
    requestWithRetry
      (fun _ => Except.error { message := "boom", statusCode := some 429 })
      1 =
      ⟨.errWrapped (wrapErrorMessage
        { message := "boom", statusCode := some 429 } 1 1), 2, 1⟩ := by
  obtain ⟨e, he, heq⟩ :=
    claim_C3.1
      (fun _ => Except.error { message := "boom", statusCode := some 429 })
      1 (fun i _ =>
        ⟨{ message := "boom", statusCode := some 429 }, rfl, by decide⟩)
  have he' : ({ message := "boom", statusCode := some 429 } : ApiError)
      = e := Except.error.inj he
  rw [← he'] at heq
  exact heq

/-- C9: every error raised by the retrying executor is a freshly
constructed plain error carrying only a wrapped message string; the
`throw lastError` rethrow of the structured API error after the loop is
unreachable, so the structured fields (status code, headers snapshot)
never reach the caller. -/
theorem claim_C9 :
    ∀ (transport : Nat → Except ApiError Val) (maxRetries : Nat),
      (∃ v, (requestWithRetry transport maxRetries).outcome =
        RetryOutcome.ok v) ∨
      (∃ msg, (requestWithRetry transport maxRetries).outcome =
        RetryOutcome.errWrapped msg) := by
  have hgo : ∀ (transport : Nat → Except ApiError Val) (maxRetries : Nat)
      (f attempt : Nat) (last : Option ApiError),
      attempt + f = maxRetries →
      (∃ v, (requestWithRetryGo transport maxRetries attempt (f + 1)
        last).outcome = RetryOutcome.ok v) ∨
      (∃ msg, (requestWithRetryGo transport maxRetries attempt (f + 1)
        last).outcome = RetryOutcome.errWrapped msg) := by
    intro transport maxRetries f
    induction f with
    | zero =>
      intro attempt last hsum
      cases he : transport attempt with
      | ok v =>
        exact Or.inl ⟨v, by rw [requestWithRetryGo_succ]; simp [he]⟩
      | error e =>
        have hnr : (isRetryableError e &&
            decide (attempt < maxRetries)) = false := by
          have : ¬(attempt < maxRetries) := by omega
          simp [this]
        refine Or.inr ⟨wrapErrorMessage e attempt maxRetries, ?_⟩
        rw [requestWithRetryGo_succ]
        simp [he, hnr]
    | succ f ih =>
      intro attempt last hsum
      cases he : transport attempt with
      | ok v =>
        exact Or.inl ⟨v, by rw [requestWithRetryGo_succ]; simp [he]⟩
      | error e =>
        by_cases hr : (isRetryableError e &&
            decide (attempt < maxRetries)) = true
        · rcases ih (attempt + 1) (some e) (by omega) with ⟨v, hv⟩ | ⟨m, hm⟩
          · exact Or.inl ⟨v, by
              rw [requestWithRetryGo_succ]
              simp [he, hr, hv]⟩
          · exact Or.inr ⟨m, by
              rw [requestWithRetryGo_succ]
              simp [he, hr, hm]⟩
        · have hr' : (isRetryableError e &&
              decide (attempt < maxRetries)) = false := by
            simpa using hr
          refine Or.inr ⟨wrapErrorMessage e attempt maxRetries, ?_⟩
          rw [requestWithRetryGo_succ]
          simp [he, hr']
  intro transport maxRetries
  exact hgo transport maxRetries maxRetries 0 none (by omega)

/-- Rejoining the batches of the bulk loop restores the item list: the
batch structure only bounds concurrency, it does not alter which requests
run or in which order results are collected. -/
lemma bulkBatches_flatten : ∀ (l : List α), (bulkBatches l).flatten = l := by
  intro l
  induction l using bulkBatches.induct with
  | case1 => simp [bulkBatches]
  | case2 x xs ih =>
    simp only [bulkBatches]
    simp only [List.flatten_cons, ih]
    rw [List.take_succ_cons]
    have : xs.take 4 ++ xs.drop 4 = xs := List.take_append_drop 4 xs
    simp [this]

/-- C4: the bulk executor returns exactly one result per input record in
input order — the whole run equals an independent per-record map — so a
record's outcome never affects its siblings; a failing record yields the
failure object carrying the error message and the original record. -/
theorem claim_C4 :
    (∀ (transport : BulkRequest → Except String Val) (op : BulkOp)
        (endpoint : String) (items : List (List (String × Val))),
      bulkOperation transport op endpoint items =
        items.map (bulkItemResult transport op endpoint)) ∧
    (∀ (transport : BulkRequest → Except String Val) (op : BulkOp)
        (endpoint : String) (items : List (List (String × Val))),
      (bulkOperation transport op endpoint items).length = items.length) ∧
    (∀ (transport : BulkRequest → Except String Val) (op : BulkOp)
        (endpoint : String) (items : List (List (String × Val)))
        (i : Nat),
      (bulkOperation transport op endpoint items)[i]? =
        (items[i]?).map (bulkItemResult transport op endpoint)) ∧
    (∀ (transport : BulkRequest → Except String Val) (op : BulkOp)
        (endpoint : String) (item : List (String × Val)) (msg : String),
      transport (bulkItemRequest op endpoint item) = Except.error msg →
      bulkItemResult transport op endpoint item =
        Val.vObj [("success", Val.vBool false), ("error", Val.vStr msg),
          ("item", Val.vObj item)]) := by
  have hmain : ∀ (transport : BulkRequest → Except String Val) (op : BulkOp)
      (endpoint : String) (items : List (List (String × Val))),
      bulkOperation transport op endpoint items =
        items.map (bulkItemResult transport op endpoint) := by
    intro transport op endpoint items
    unfold bulkOperation
    rw [← List.map_flatten, bulkBatches_flatten]
  refine ⟨hmain, ?_, ?_, ?_⟩
  · intro transport op endpoint items
    rw [hmain]
    exact List.length_map _ _
  · intro transport op endpoint items i
    rw [hmain]
    exact List.getElem?_map _ items i
  · intro transport op endpoint item msg h
    unfold bulkItemResult
    rw [h]

/-- C4 (witness): a concrete failing record produces the failure object
with the message and the original record. -/
theorem claim_C4_witness :
    bulkItemResult (fun _ => Except.error "boom") BulkOp.create
      "/rest/companies" [("name", Val.vStr "Bad")] =
      Val.vObj [("success", Val.vBool false), ("error", Val.vStr "boom"),
        ("item", Val.vObj [("name", Val.vStr "Bad")])] :=
  claim_C4.2.2.2 (fun _ => Except.error "boom") BulkOp.create
    "/rest/companies" [("name", Val.vStr "Bad")] "boom" rfl

/-- Lookup of any key other than the stripped identifier is unchanged by
the identifier removal. -/
lemma objGet_removeId (item : List (String × Val)) (k : String)
    (hk : k ≠ "id") : objGet (removeId item) k = objGet item k := by
  unfold objGet removeId getField
  induction item with
  | nil => rfl
  | cons kv rest ih =>
    by_cases hkv : kv.1 = "id"
    · have hne : (kv.1 == k) = false := by
        rw [hkv]
        exact beq_eq_false_iff_ne.mpr (fun h => hk h.symm)
      have hfil : (kv.1 != "id") = false := by
        simp [hkv]
      simp only [List.filter_cons, hfil, Bool.false_eq_true, if_false,
        List.find?_cons, hne]
      simpa using ih
    · have hfil : (kv.1 != "id") = true := by
        simp [hkv]
      simp only [List.filter_cons, hfil, if_true, List.find?_cons]
      cases hkk : (kv.1 == k) with
      | true => rfl
      | false => simpa using ih

/-- C7: for every record in a batch update, the outgoing request is a PUT
whose path appends the identifier to the endpoint and whose body is the
record with the identifier field removed and every other field unchanged
(membership preserved both ways and lookups untouched). -/
theorem claim_C7 (endpoint : String) (item : List (String × Val))
    (idStr : String) (hid : objGet item "id" = Val.vStr idStr) :
    (bulkItemRequest BulkOp.update endpoint item).method = "PUT" ∧
    (bulkItemRequest BulkOp.update endpoint item).path =
      endpoint ++ "/" ++ idStr ∧
    (bulkItemRequest BulkOp.update endpoint item).body =
      some (removeId item) ∧
    (∀ kv : String × Val, kv ∈ removeId item ↔ kv ∈ item ∧ kv.1 ≠ "id") ∧
    (∀ k, k ≠ "id" → objGet (removeId item) k = objGet item k) := by
  refine ⟨rfl, ?_, rfl, ?_, fun k hk => objGet_removeId item k hk⟩
  · show endpoint ++ "/" ++ jsToString (objGet item "id") =
      endpoint ++ "/" ++ idStr
    rw [hid]
    rfl
  · intro kv
    constructor
    · intro h
      rcases List.mem_filter.mp h with ⟨hmem, hne⟩
      exact ⟨hmem, by simpa using hne⟩
    · intro ⟨hmem, hne⟩
      exact List.mem_filter.mpr ⟨hmem, by simpa using hne⟩

/-- C7 (witness): the update request for a concrete record strips the
identifier and addresses the identifier-specific endpoint. -/
theorem claim_C7_witness :
    objGet [("id", Val.vStr "123"), ("name", Val.vStr "Updated Acme")]
      "id" = Val.vStr "123" ∧
    (bulkItemRequest BulkOp.update "/rest/companies"
      [("id", Val.vStr "123"), ("name", Val.vStr "Updated Acme")]).path =
      "/rest/companies" ++ "/" ++ "123" :=
  ⟨rfl,
    (claim_C7 "/rest/companies"
      [("id", Val.vStr "123"), ("name", Val.vStr "Updated Acme")]
      "123" rfl).2.1⟩

/-- Finding the updated key after an in-place overwrite. -/
lemma find?_replaceKey (k : String) (v : Val) :
    ∀ (fs : List (String × Val)), fs.any (fun kv => kv.1 == k) = true →
      (fs.map (fun kv => if kv.1 == k then (k, v) else kv)).find?
        (fun kv => kv.1 == k) = some (k, v) := by
  intro fs
  induction fs with
  | nil => intro h; cases h
  | cons kv rest ih =>
    intro h
    cases hkv : (kv.1 == k) with
    | true =>
      simp only [List.map_cons, hkv, if_true, List.find?_cons]
      have : ((k, v).1 == k) = true := by simp
      rw [this]
    | false =>
      have hrest : rest.any (fun kv => kv.1 == k) = true := by
        rcases List.any_eq_true.mp h with ⟨p, hp, hpk⟩
        rcases List.mem_cons.mp hp with rfl | hp'
        · rw [hkv] at hpk
          cases hpk
        · exact List.any_eq_true.mpr ⟨p, hp', hpk⟩
      simp only [List.map_cons, hkv, Bool.false_eq_true, if_false,
        List.find?_cons, ih hrest]

/-- Finding the appended key when no existing entry has it. -/
lemma find?_appendKey (k : String) (v : Val) :
    ∀ (fs : List (String × Val)), fs.any (fun kv => kv.1 == k) = false →
      (fs ++ [(k, v)]).find? (fun kv => kv.1 == k) = some (k, v) := by
  intro fs
  induction fs with
  | nil =>
    intro _
    simp only [List.nil_append, List.find?_cons]
    have : ((k, v).1 == k) = true := by simp
    rw [this]
  | cons kv rest ih =>
    intro h
    have hkv : (kv.1 == k) = false := by
      cases hkv : (kv.1 == k) with
      | true =>
        rw [List.any_cons, hkv] at h
        cases h
      | false => rfl
    have hrest : rest.any (fun kv => kv.1 == k) = false := by
      rw [List.any_cons, hkv] at h
      simpa using h
    simp only [List.cons_append, List.find?_cons, hkv, ih hrest]

/-- Reading back the key written by an object-literal update. -/
lemma getField_setKey (fs : List (String × Val)) (k : String) (v : Val) :
    getField (Val.vObj (setKey fs k v)) k = v := by
  unfold getField setKey
  cases hany : fs.any (fun kv => kv.1 == k) with
  | true =>
    simp only [hany, if_true, find?_replaceKey k v fs hany]
  | false =>
    simp only [hany, Bool.false_eq_true, if_false,
      find?_appendKey k v fs hany]

/-- C5: fan-out search never raises — a resource type whose sub-call
fails contributes zero results — the overall list is the concatenation of
the per-type contributions in resource-type issue order, and every
returned result carries the tag of the resource type it came from. -/
theorem claim_C5 :
    (∀ (transport : String → List (String × Val) → Except String Val)
        (query : String) (limit : Int) (t : String) (e : String),
      transport ("/rest/" ++ t)
          [("search", Val.vStr query), ("limit", Val.vNum limit)] =
        Except.error e →
      searchTypeContribution transport query limit t = []) ∧
    (∀ (transport : String → List (String × Val) → Except String Val)
        (query : String) (limit : Int) (t : String) (rest : List String),
      searchRecords transport query (t :: rest) limit =
        searchTypeContribution transport query limit t ++
          searchRecords transport query rest limit) ∧
    (∀ (transport : String → List (String × Val) → Except String Val)
        (query : String) (limit : Int) (types : List String) (r : Val),
      r ∈ searchRecords transport query types limit →
      ∃ t ∈ types, ∃ item, r = tagWithObjectType t item ∧
        getField r "_objectType" = Val.vStr t) := by
  refine ⟨?_, ?_, ?_⟩
  · intro transport query limit t e h
    simp [searchTypeContribution, h]
  · intro transport query limit t rest
    simp [searchRecords]
  · intro transport query limit types r hr
    unfold searchRecords at hr
    rcases List.mem_flatten.mp hr with ⟨l, hl, hrl⟩
    rcases List.mem_map.mp hl with ⟨t, ht, rfl⟩
    refine ⟨t, ht, ?_⟩
    unfold searchTypeContribution at hrl
    cases htr : transport ("/rest/" ++ t)
        [("search", Val.vStr query), ("limit", Val.vNum limit)] with
    | error e =>
      rw [htr] at hrl
      simp at hrl
    | ok response =>
      rw [htr] at hrl
      simp only at hrl
      rcases List.mem_map.mp hrl with ⟨item, _, rfl⟩
      exact ⟨item, rfl, getField_setKey _ "_objectType" (Val.vStr t)⟩

/-- C5 (witness): a failing sub-call contributes zero results. -/
theorem claim_C5_witness :
    searchTypeContribution (fun _ _ => Except.error "boom")
      "test" 20 "companies" = [] :=
  claim_C5.1 (fun _ _ => Except.error "boom") "test" 20 "companies"
    "boom" rfl

/-- C10: when a sub-search succeeds with a response that is neither an
array nor an object whose `data` is an array, the contribution is exactly
one result — the possibly `data`-unwrapped response with the source-type
tag added; when the unwrapped value is an object the tag is written as
its `_objectType` field. -/
theorem claim_C10
    (transport : String → List (String × Val) → Except String Val)
    (query : String) (limit : Int) (t : String) (response : Val)
    (hok : transport ("/rest/" ++ t)
        [("search", Val.vStr query), ("limit", Val.vNum limit)] =
      Except.ok response)
    (hna : isArr response = false)
    (hnd : isArr (getField response "data") = false) :
    searchTypeContribution transport query limit t =
      [tagWithObjectType t (jsOr (getField response "data") response)] ∧
    (∀ fs, jsOr (getField response "data") response = Val.vObj fs →
      tagWithObjectType t (jsOr (getField response "data") response) =
        Val.vObj (setKey fs "_objectType" (Val.vStr t))) := by
  constructor
  · have hdarr : isArr (jsOr (getField response "data") response) =
        false := by
      unfold jsOr
      split
      · exact hnd
      · exact hna
    unfold searchTypeContribution
    rw [hok]
    simp only
    cases hd : jsOr (getField response "data") response with
    | vArr xs =>
      rw [hd] at hdarr
      simp [isArr] at hdarr
    | vUndefined => rfl
    | vNull => rfl
    | vBool b => rfl
    | vNum n => rfl
    | vStr s => rfl
    | vObj fs => rfl
  · intro fs hfs
    rw [hfs]
    rfl

/-- C10 (witness): an empty-object response yields exactly one tagged
pseudo-match. -/
theorem claim_C10_witness :
    searchTypeContribution (fun _ _ => Except.ok (Val.vObj []))
      "q" 20 "companies" =
      [Val.vObj [("_objectType", Val.vStr "companies")]] :=
  ((claim_C10 (fun _ _ => Except.ok (Val.vObj [])) "q" 20 "companies"
    (Val.vObj []) rfl rfl rfl).1).trans rfl

/-- C6: field-match lookup takes the fallback free-text path only when
the primary structured-filter request errors (a successful primary
request determines the result regardless of the fallback transport);
the fallback requests at most 10 rows and scans them with the
case-insensitive/string-coercion match; and it returns none, never
raising, when both paths fail or neither finds a matching row. -/
theorem claim_C6 :
    (∀ (t₁ t₂ : List (String × Val) → Except String Val)
        (f v : String) (r : Val),
      t₁ (findPrimaryQs f v) = Except.ok r →
      t₂ (findPrimaryQs f v) = Except.ok r →
      findRecordByField t₁ f v = findRecordByField t₂ f v) ∧
    (∀ (t : List (String × Val) → Except String Val) (f v : String)
        (e : String) (response : Val) (xs : List Val),
      t (findPrimaryQs f v) = Except.error e →
      t (findFallbackQs v) = Except.ok response →
      jsOr (getField response "data") response = Val.vArr xs →
      (("limit", Val.vNum 10) ∈ findFallbackQs v ∧
       findRecordByField t f v =
         (match xs.find? (fieldMatches f v) with
          | some m => if truthy m then some m else none
          | none => none))) ∧
    (∀ (t : List (String × Val) → Except String Val) (f v : String)
        (e₁ e₂ : String),
      t (findPrimaryQs f v) = Except.error e₁ →
      t (findFallbackQs v) = Except.error e₂ →
      findRecordByField t f v = none) ∧
    (∀ (t : List (String × Val) → Except String Val) (f v : String)
        (r : Val),
      t (findPrimaryQs f v) = Except.ok r →
      jsOr (getField r "data") r = Val.vArr [] →
      findRecordByField t f v = none) ∧
    (∀ (t : List (String × Val) → Except String Val) (f v : String)
        (e : String) (response : Val) (xs : List Val),
      t (findPrimaryQs f v) = Except.error e →
      t (findFallbackQs v) = Except.ok response →
      jsOr (getField response "data") response = Val.vArr xs →
      xs.find? (fieldMatches f v) = none →
      findRecordByField t f v = none) := by
  refine ⟨?_, ?_, ?_, ?_, ?_⟩
  · intro t₁ t₂ f v r h1 h2
    unfold findRecordByField
    rw [h1, h2]
  · intro t f v e response xs he hok hxs
    refine ⟨by simp [findFallbackQs], ?_⟩
    unfold findRecordByField
    rw [he, hok]
    simp only [hxs]
  · intro t f v e₁ e₂ h1 h2
    unfold findRecordByField
    rw [h1, h2]
  · intro t f v r h1 hempty
    unfold findRecordByField
    rw [h1]
    simp only [hempty]
  · intro t f v e response xs he hok hxs hnone
    unfold findRecordByField
    rw [he, hok]
    simp only [hxs, hnone]

/-- C6 (witness): both paths failing yields none for a concrete lookup. -/
theorem claim_C6_witness :
    findRecordByField (fun _ => Except.error "down") "name" "Acme" =
      none :=
  claim_C6.2.2.1 (fun _ => Except.error "down") "name" "Acme"
    "down" "down" rfl rfl

/-- C8 (counterexample): the claim quantifies over every base URL ending
in a trailing slash, but the constructor removes only one slash: a base
URL ending in a doubled slash keeps a doubled slash at the join point. -/
theorem claim_C8_counterexample :
    ("http://a//").toList.getLast? = some '/' ∧
    ("/b").toList.head? = some '/' ∧
    buildRequestUrl "http://a//" "/b" = "http://a//b" ∧
    joinHasDoubledSlash "http://a//" "/b" = true := by
  refine ⟨rfl, rfl, rfl, rfl⟩

/-- C8 (amended): for every base URL ending in exactly one trailing slash
(its second-to-last character is not also a slash) and every endpoint
beginning with a slash, the constructed request URL has no doubled slash
at the join point. -/
theorem claim_C8_amended (base endpoint : String)
    (h1 : base.toList.getLast? = some '/')
    (h2 : base.toList.dropLast.getLast? ≠ some '/')
    (h3 : endpoint.toList.head? = some '/') :
    joinHasDoubledSlash base endpoint = false := by
  unfold joinHasDoubledSlash stripTrailingSlash
  rw [if_pos h1]
  have hmk : (String.mk base.toList.dropLast).toList =
      base.toList.dropLast := rfl
  rw [hmk]
  have hbeq : (base.toList.dropLast.getLast? == some '/') = false := by
    exact beq_eq_false_iff_ne.mpr h2
  rw [hbeq]
  simp

/-- Full characterization of the pagination loop: as soon as some served
page fails the continuation test, the loop consumes exactly the pages up
to and including the first failing one, appends their extracted items in
page order, and sends offsets increasing from the start offset in steps
of the limit. -/
lemma requestAllItemsGo_spec (limit : Nat) :
    ∀ (pages : List Val) (off : Nat),
      (∃ p ∈ pages, pageContinues limit p = false) →
      requestAllItemsGo limit off pages =
        (((pages.take
            ((pages.takeWhile (pageContinues limit)).length + 1)).map
              extractItems).flatten,
         (List.range
            ((pages.takeWhile (pageContinues limit)).length + 1)).map
           (fun i => off + i * limit)) := by
  intro pages
  induction pages with
  | nil =>
    intro off h
    rcases h with ⟨p, hp, _⟩
    exact absurd hp (List.not_mem_nil _)
  | cons p rest ih =>
    intro off h
    by_cases hc : pageContinues limit p
    · have hrest : ∃ q ∈ rest, pageContinues limit q = false := by
        rcases h with ⟨q, hq, hqf⟩
        rcases List.mem_cons.mp hq with rfl | hq'
        · rw [hc] at hqf
          cases hqf
        · exact ⟨q, hq', hqf⟩
      have hih := ih (off + limit) hrest
      simp only [requestAllItemsGo, hc, if_true, hih,
        List.takeWhile_cons, List.length_cons, List.take_succ_cons,
        List.map_cons, List.flatten_cons, List.range_succ_eq_map,
        List.map_map, Nat.zero_mul, Nat.add_zero, Prod.mk.injEq,
        List.cons.injEq, true_and]
      refine ⟨by omega, ?_⟩
      apply List.map_congr_left
      intro i _
      simp only [Function.comp_apply, Nat.succ_eq_add_one, Nat.succ_mul]
      omega
    · have hc' : pageContinues limit p = false := by
        simpa using hc
      simp only [requestAllItemsGo, hc', Bool.false_eq_true, if_false,
        List.takeWhile_cons, List.length_nil, List.take_succ_cons,
        List.map_cons, List.flatten_cons, Nat.zero_add]
      simp [hc', List.range_succ_eq_map]

/-- C2 (counterexample): the claim says the aggregator terminates exactly
when a round's `data` is not an array or its length is less than the
requested limit, but the loop condition compares with strict equality:
a served page of 3 items with limit 2 (an array, length not less than the
limit) still terminates the loop after one request. -/
theorem claim_C2_counterexample :
    (requestAllItems (Val.vNum 2)
        [Val.vObj [("data",
          Val.vArr [Val.vNum 1, Val.vNum 2, Val.vNum 3])]]).2 = [0] ∧
    isArr (getField (Val.vObj [("data",
      Val.vArr [Val.vNum 1, Val.vNum 2, Val.vNum 3])]) "data") = true ∧
    arrLen (getField (Val.vObj [("data",
      Val.vArr [Val.vNum 1, Val.vNum 2, Val.vNum 3])]) "data") = 3 ∧
    effectiveLimit (Val.vNum 2) = 2 ∧ ¬(3 < 2) := by
  refine ⟨rfl, rfl, rfl, rfl, by omega⟩

set_option maxRecDepth 8192 in
/-- C2 (amended): the aggregator starts at offset 0, increments the
offset by the fixed limit each round, appends each page's items in page
order, and terminates exactly when a round's `data` property is not an
array or its length differs from the requested limit; against a 230-item
dataset served in pages of 200 then 30 with limit 200 it returns exactly
230 items via exactly 2 requests with offsets 0 and 200. -/
theorem claim_C2_amended :
    (∀ (qsLimit : Val) (pages : List Val),
      (∃ p ∈ pages,
        pageContinues (effectiveLimit qsLimit) p = false) →
      requestAllItems qsLimit pages =
        (((pages.take
            ((pages.takeWhile
              (pageContinues (effectiveLimit qsLimit))).length + 1)).map
              extractItems).flatten,
         (List.range
            ((pages.takeWhile
              (pageContinues (effectiveLimit qsLimit))).length + 1)).map
           (· * effectiveLimit qsLimit))) ∧
    (requestAllItems Val.vUndefined
        [Val.vObj [("data", Val.vArr (List.replicate 200 (Val.vNum 1)))],
         Val.vObj [("data", Val.vArr (List.replicate 30 (Val.vNum 2)))]] =
      (List.replicate 200 (Val.vNum 1) ++ List.replicate 30 (Val.vNum 2),
       [0, 200])) := by
  constructor
  · intro qsLimit pages h
    unfold requestAllItems
    rw [requestAllItemsGo_spec (effectiveLimit qsLimit) pages 0 h]
    refine congrArg _ ?_
    apply List.map_congr_left
    intro i _
    omega
  · rfl

/-- C2 (witness): the amended characterization applied to a one-page run
with limit 5 and a single item. -/
theorem claim_C2_witness :
    requestAllItems (Val.vNum 5)
      [Val.vObj [("data", Val.vArr [Val.vNum 7])]] =
      ([Val.vNum 7], [0]) :=
  (claim_C2_amended.1 (Val.vNum 5)
    [Val.vObj [("data", Val.vArr [Val.vNum 7])]]
    ⟨Val.vObj [("data", Val.vArr [Val.vNum 7])],
      List.mem_cons_self _ _, rfl⟩).trans rfl

/-- C8 (witness): the amended statement at the documented example base
URL. -/
theorem claim_C8_witness :
    ("https://crm.example.com/").toList.getLast? = some '/' ∧
    joinHasDoubledSlash "https://crm.example.com/" "/rest/companies" =
      false :=
  ⟨by decide,
    claim_C8_amended "https://crm.example.com/" "/rest/companies"
      (by decide) (by decide) (by decide)⟩

end TwentyMcp
